import Mathlib

/-
Verification development for reggen's IP-block model (src/reggen/ip_block.py).

The IpBlock dataclass and its operations (__post_init__, from_raw,
alias_from_raw, _asdict, check_regwens) are embedded as executable Lean
functions.  Python dicts keyed by `str | None` become association lists over
`Option String`; in-place mutation plus exceptions becomes explicit state
passing: `alias_from_raw` returns the post-call state together with an
optional error, so that partial mutation on failure stays observable.

Collaborator components that are not part of the sources (RegBlock,
BusInterfaces, Clocking, ReggenParams, reggen.lib checkers, the external
semantic_version library) are modelled from the specification; each such
definition carries a doc comment starting with "Modelled from the spec:".
-/

set_option autoImplicit false

deriving instance DecidableEq for Except

/-- Association-list lookup, mirroring Python `d[k]` / `k in d` on dicts. -/
def alLookup {α β : Type} [DecidableEq α] (l : List (α × β)) (k : α) : Option β :=
  match l with
  | [] => none
  | (k', v) :: rest => if k' = k then some v else alLookup rest k

/-- Association-list update, mirroring Python `d[k] = v`: replaces the value
in place when the key is present, appends otherwise. -/
def alSet {α β : Type} [DecidableEq α] (l : List (α × β)) (k : α) (v : β) :
    List (α × β) :=
  match l with
  | [] => [(k, v)]
  | (k', v') :: rest => if k' = k then (k, v) :: rest else (k', v') :: alSet rest k v

/-- Equality of two lists viewed as sets, mirroring Python `set(a) == set(b)`. -/
def eqAsSet {α : Type} [DecidableEq α] (l₁ l₂ : List α) : Bool :=
  decide (∀ x ∈ l₁, x ∈ l₂) && decide (∀ x ∈ l₂, x ∈ l₁)

/-- Whether the first list occurs at the head of the second. -/
def charsPre : List Char → List Char → Bool
  | [], _ => true
  | _ :: _, [] => false
  | a :: as', b :: bs => a == b && charsPre as' bs

/-- Whether the first list occurs contiguously anywhere in the second. -/
def charsSub (n : List Char) : List Char → Bool
  | [] => charsPre n []
  | c :: t => charsPre n (c :: t) || charsSub n t

/-- Substring containment, mirroring Python `needle in haystack` on strings. -/
def strContains (needle hay : String) : Bool :=
  charsSub needle.toList hay.toList

/-- Register-name marker test, mirroring `"REGWEN" in reg.name`
(ip_block.py line 389). -/
def hasRegwenToken (s : String) : Bool :=
  strContains "REGWEN" s

/-- Modelled from the spec: a register field of the Register Block
collaborator.  `name`, `desc`, `resval` and `tags` are the overridable
cosmetic attributes; `lsb`, `width` and `swaccess` are structural
(bit position, bit width, access semantics). -/
structure RField where
  name : String
  desc : String
  resval : Nat
  tags : List String
  lsb : Nat
  width : Nat
  swaccess : String
deriving DecidableEq, Repr

/-- Structural projection of a field: bit position, width and access. -/
def RField.struct (f : RField) : Nat × Nat × String :=
  (f.lsb, f.width, f.swaccess)

/-- Modelled from the spec: a register of the Register Block collaborator,
with cosmetic attributes (name, desc, resval, tags), structural attributes
(offset, regwen reference) and its list of fields. -/
structure Register where
  name : String
  desc : String
  resval : Nat
  tags : List String
  offset : Nat
  regwen : Option String
  fields : List RField
deriving DecidableEq, Repr

/-- Structural projection of a register: offset, regwen and field layout. -/
def regStruct (r : Register) : Nat × Option String × List (Nat × Nat × String) :=
  (r.offset, r.regwen, r.fields.map RField.struct)

/-- Modelled from the spec: a multi-register instance exposing its expanded
registers through `pregs`. -/
structure MultiRegister where
  pregs : List Register
deriving DecidableEq, Repr

/-- Modelled from the spec: the Register Block collaborator, holding plain
registers and multi-register instances for one device interface. -/
structure RegBlock where
  name : String
  registers : List Register
  multiregs : List MultiRegister
deriving DecidableEq, Repr

/-- Structural projection of a whole register block: register count and the
structural attributes of every plain register and multi-register. -/
def blockStruct (rb : RegBlock) :
    List (Nat × Option String × List (Nat × Nat × String)) ×
    List (List (Nat × Option String × List (Nat × Nat × String))) :=
  (rb.registers.map regStruct, rb.multiregs.map (fun mr => mr.pregs.map regStruct))

/-- Modelled from the spec: one entry of the Clock Set collaborator. -/
structure ClockingItem where
  clock : String
  reset : String
deriving DecidableEq, Repr

/-- Modelled from the spec: the Clock Set collaborator (ordered items). -/
structure Clocking where
  items : List ClockingItem
deriving DecidableEq, Repr

/-- Modelled from the spec: the Bus Interface Set collaborator, exposing
named/unnamed host and device interfaces, per-interface asynchronous
classification entries, and per-interface (mutable) hierarchy paths. -/
structure BusInterfaces where
  named_hosts : List String
  has_unnamed_host : Bool
  named_devices : List String
  has_unnamed_device : Bool
  device_async : List (Option String × String)
  device_hier_paths : List (Option String × String)
deriving DecidableEq, Repr

/-- Modelled from the spec: the Parameter Set collaborator as a list of
(parameter name, value) pairs. -/
abbrev ReggenParams := List (String × String)

/-- Modelled from the spec: ReggenParams.apply_defaults — applying an
override that references an undeclared parameter fails. -/
def applyDefaults (ps : ReggenParams) (defaults : List (String × String)) :
    Except String ReggenParams :=
  let ps' : List (String × String) := ps
  if decide (∀ d ∈ defaults, ∃ p ∈ ps', p.1 = d.1) then
    .ok (defaults.foldl (fun acc d => alSet acc d.1 d.2) ps')
  else
    .error "unknown parameter in defaults"

/-- Semantic version carrier: a parsed structured version when the external
semantic_version library parsed it, or the plain-string fallback class
defined at ip_block.py lines 18-25. -/
inductive Version where
  | sem (major minor patch : Nat)
  | plain (s : String)
deriving DecidableEq, Repr

/-- String form of a version, mirroring Python `str(version)`. -/
def Version.toStr : Version → String
  | .sem a b c => toString a ++ "." ++ toString b ++ "." ++ toString c
  | .plain s => s

/-- Splits a character list at every dot. -/
def splitDots : List Char → List (List Char)
  | [] => [[]]
  | c :: rest =>
    let r := splitDots rest
    if c = '.' then [] :: r
    else
      match r with
      | [] => [[c]]
      | g :: gs => (c :: g) :: gs

/-- Parses a nonempty all-digit character list as a decimal number. -/
def digitsToNat? (cs : List Char) : Option Nat :=
  if cs.isEmpty then none
  else if cs.all (fun c => c.isDigit) then
    some (cs.foldl (fun n c => 10 * n + (c.toNat - 48)) 0)
  else none

/-- Modelled from the spec: the external semantic_version library parses a
dotted numeric major.minor.patch triple and raises on anything else. -/
def parseSemver (s : String) : Option (Nat × Nat × Nat) :=
  match (splitDots s.toList).map digitsToNat? with
  | [some x, some y, some z] => some (x, y, z)
  | _ => none

/-- Version construction, mirroring `Version(...)` at ip_block.py line 173:
with the semantic_version library available an unparsable string raises;
with the library absent the in-repo fallback wraps any string. -/
def mkVersion (semverLib : Bool) (s : String) : Except String Version :=
  if semverLib then
    match parseSemver s with
    | some (x, y, z) => .ok (.sem x y z)
    | none => .error ("Invalid version string: " ++ s)
  else
    .ok (.plain s)

/-- Modelled from the spec: reggen.lib.check_name validates identifier
syntax (letters, digits, underscores, not starting with a digit). -/
def validName (s : String) : Bool :=
  !s.toList.isEmpty &&
    s.toList.all (fun c => c.isAlpha || c.isDigit || c == '_') &&
    !(s.toList.headD 'a').isDigit

/-- Modelled from the spec: reggen.lib.check_name returns the name unchanged
on success and raises on invalid identifier syntax. -/
def checkName (s : String) : Except String String :=
  if validName s then .ok s else .error ("not a valid name: " ++ s)

/-- Merge of one field in apply_alias: cosmetic attributes come from the
alias field, structural attributes from the generic field.  Modelled from
the spec: field.py's overridable subset is name, desc, resval, tags. -/
def mergeField (g a : RField) : RField :=
  { name := a.name, desc := a.desc, resval := a.resval, tags := a.tags,
    lsb := g.lsb, width := g.width, swaccess := g.swaccess }

/-- Modelled from the spec: register-level apply_alias asserts structural
identity (offset, regwen, field layout) and overrides only the cosmetic
attributes. -/
def applyAliasReg (g a : Register) : Except String Register :=
  if regStruct g = regStruct a then
    .ok { name := a.name, desc := a.desc, resval := a.resval, tags := a.tags,
          offset := g.offset, regwen := g.regwen,
          fields := List.zipWith mergeField g.fields a.fields }
  else
    .error "structural mismatch between alias and generic register"

/-- Pairwise apply_alias over register lists; a register-count mismatch is a
structural failure. -/
def applyAliasRegs : List Register → List Register → Except String (List Register)
  | [], [] => .ok []
  | g :: gs, a :: as' =>
    match applyAliasReg g a with
    | .error e => .error e
    | .ok r =>
      match applyAliasRegs gs as' with
      | .error e => .error e
      | .ok rs => .ok (r :: rs)
  | _, _ => .error "register count mismatch between alias and generic block"

/-- Pairwise apply_alias over multi-register lists. -/
def applyAliasMrs : List MultiRegister → List MultiRegister →
    Except String (List MultiRegister)
  | [], [] => .ok []
  | g :: gs, a :: as' =>
    match applyAliasRegs g.pregs a.pregs with
    | .error e => .error e
    | .ok r =>
      match applyAliasMrs gs as' with
      | .error e => .error e
      | .ok rs => .ok (⟨r⟩ :: rs)
  | _, _ => .error "multireg count mismatch between alias and generic block"

/-- Modelled from the spec: RegBlock.apply_alias merges an alias block into
a generic block, asserting structural identity of every non-overridable
attribute and accepting changes only to the cosmetic subset; raises on any
structural divergence. -/
def RegBlock.apply_alias (g a : RegBlock) : Except String RegBlock :=
  match applyAliasRegs g.registers a.registers with
  | .error e => .error e
  | .ok rs =>
    match applyAliasMrs g.multiregs a.multiregs with
    | .error e => .error e
    | .ok mrs => .ok { name := g.name, registers := rs, multiregs := mrs }

/-- Scrub of one register: removes free-text and tag content that is not
meant to be structurally asserted. -/
def scrubReg (r : Register) : Register :=
  { r with desc := "", tags := [],
           fields := r.fields.map (fun f => { f with desc := "", tags := [] }) }

/-- Modelled from the spec: RegBlock.scrub_alias scrubs sensitive fields of
an alias block so that it can serve as the generic register structure. -/
def RegBlock.scrub_alias (rb : RegBlock) : RegBlock :=
  { rb with registers := rb.registers.map scrubReg,
            multiregs := rb.multiregs.map (fun mr => ⟨mr.pregs.map scrubReg⟩) }

/-- Modelled from the spec: RegBlock.build_blocks partitions the declared
register list per device interface.  The raw register list is embedded at
the granularity of that partition (register parsing itself is an excluded
collaborator), so building returns the partition. -/
def buildBlocks (raw : List (Option String × RegBlock)) :
    List (Option String × RegBlock) :=
  raw

/-- Python value tree used for `_asdict` serialization output. -/
inductive PyVal where
  | str (s : String)
  | int (n : Int)
  | bool (b : Bool)
  | list (xs : List PyVal)
  | dict (kvs : List (Option String × PyVal))

/-- Whether a Python value is a list. -/
def PyVal.isList : PyVal → Bool
  | .list _ => true
  | _ => false

/-- Whether a Python value is a dict. -/
def PyVal.isDict : PyVal → Bool
  | .dict _ => true
  | _ => false

/-- Modelled from the spec: RegBlock.as_dicts serializes the block's
registers to a flat Python list. -/
def RegBlock.as_dicts (rb : RegBlock) : PyVal :=
  .list (rb.registers.map (fun r => .str r.name))

/-- Modelled from the spec: ReggenParams.as_dicts serialization. -/
def paramsAsDicts (ps : ReggenParams) : PyVal :=
  .list ((ps : List (String × String)).map (fun p => .str p.1))

/-- Modelled from the spec: BusInterfaces.as_dicts serialization. -/
def busAsDicts (bi : BusInterfaces) : PyVal :=
  .list (bi.named_devices.map .str ++ bi.named_hosts.map .str)

/-- Serialization of the clocking items (ip_block.py line 349 stores the
items list directly). -/
def clockingVal (c : Clocking) : PyVal :=
  .list (c.items.map (fun it => .str it.clock))

/-- The IpBlock dataclass (ip_block.py lines 90-103). -/
structure IpBlock where
  name : String
  regwidth : Int
  params : ReggenParams
  reg_blocks : List (Option String × RegBlock)
  bus_interfaces : BusInterfaces
  clocking : Clocking
  version : Version
  scan : Bool
  scan_reset : Bool
  scan_en : Bool
  node : String
  alias_impl : Option String
deriving DecidableEq, Repr

/-- The declared device-interface identities: named device interfaces plus,
if present, the distinguished unnamed key (ip_block.py lines 176-179). -/
def declaredIds (bi : BusInterfaces) : List (Option String) :=
  bi.named_devices.map some ++
    (if bi.has_unnamed_device then [(none : Option String)] else [])

/-- Key list of the register-block mapping. -/
def keysOf (b : IpBlock) : List (Option String) :=
  b.reg_blocks.map Prod.fst

/-- The dataclass finalization IpBlock.__post_init__ (ip_block.py lines
105-124): asserts the mapping nonempty, filters interfaces and register
blocks when a node selector is set, and asserts the bijection between
register-block keys and device-interface identities.  A failed Python
assert is a construction failure, modelled as an error. -/
def postInit (b : IpBlock) : Except String IpBlock :=
  if b.reg_blocks.isEmpty then .error "assertion failed: reg_blocks" else
  let devNamed : List (Option String) :=
    if b.node ≠ "" then
      (b.bus_interfaces.named_devices.filter (fun i => i == b.node)).map some
    else
      b.bus_interfaces.named_devices.map some
  let rbs :=
    if b.node ≠ "" then
      b.reg_blocks.filter (fun kv => kv.1 == some b.node)
    else
      b.reg_blocks
  let devNames := devNamed ++
    (if b.bus_interfaces.has_unnamed_device then [(none : Option String)] else [])
  if eqAsSet (rbs.map Prod.fst) devNames then
    .ok { b with reg_blocks := rbs }
  else
    .error "assertion failed: reg blocks not in bijection with device interfaces"

/-- Raw IpBlock description after shape validation (check_keys against
REQUIRED_FIELDS/OPTIONAL_FIELDS): collaborator sub-structures are embedded
at their parsed granularity. -/
structure RawBlock where
  name : String
  regwidth : Option Int
  param_list : ReggenParams
  registers : List (Option String × RegBlock)
  bus_interfaces : BusInterfaces
  clocking : Clocking
  version : Option String
  scan : Option Bool
  scan_reset : Option Bool
  scan_en : Option Bool
deriving DecidableEq, Repr

/-- IpBlock.from_raw (ip_block.py lines 126-196): validates the raw
structure, resolves register width, parameters, scan flags and version,
builds the collaborators, checks the bijection between register blocks and
device interfaces, and finalizes through __post_init__.  `semverLib` states
whether the external semantic_version library is importable (the try/import
at ip_block.py lines 18-25). -/
def IpBlock.from_raw (semverLib : Bool) (param_defaults : List (String × String))
    (raw : RawBlock) (node : String) : Except String IpBlock :=
  match checkName raw.name with
  | .error e => .error e
  | .ok name =>
    match (match raw.regwidth with
           | none => Except.ok (32 : Int)
           | some r =>
             if r ≤ 0 then .error "Invalid regwidth field: not positive"
             else .ok r) with
    | .error e => .error e
    | .ok regwidth =>
      match applyDefaults raw.param_list param_defaults with
      | .error e => .error ("Failed to apply defaults to params: " ++ e)
      | .ok params =>
        let scan := raw.scan.getD false
        let bus_interfaces := raw.bus_interfaces
        let clocking := raw.clocking
        let reg_blocks := buildBlocks raw.registers
        let scan_reset := raw.scan_reset.getD false
        let scan_en := raw.scan_en.getD false
        match mkVersion semverLib (raw.version.getD "0.0.0") with
        | .error e => .error e
        | .ok version =>
          if eqAsSet (reg_blocks.map Prod.fst) (declaredIds bus_interfaces) then
            postInit { name := name, regwidth := regwidth, params := params,
                       reg_blocks := reg_blocks,
                       bus_interfaces := bus_interfaces, clocking := clocking,
                       version := version, scan := scan,
                       scan_reset := scan_reset, scan_en := scan_en,
                       node := node, alias_impl := none }
          else
            .error "IP block defines device interfaces but its registers do not match"

/-- Raw alias description after shape validation (check_keys against
REQUIRED_ALIAS_FIELDS), with collaborator sub-structures at their parsed
granularity. -/
structure AliasRaw where
  alias_impl : String
  alias_target : String
  registers : List (Option String × RegBlock)
  bus_interfaces : BusInterfaces
deriving DecidableEq, Repr

/-- The per-interface merge body of the alias loop (ip_block.py lines
314-324): in scrub mode the scrubbed alias block replaces the register
block outright; otherwise the alias hierarchy path overrides the bus
interface's path and apply_alias merges the alias block into the generic
one.  Python dict lookups that would raise KeyError are modelled as
errors. -/
def mergeApply (scrub : Bool) (abi : BusInterfaces) (st : IpBlock)
    (key : Option String) (ablock : RegBlock) : IpBlock × Option String :=
  match scrub with
  | true =>
    ({ st with reg_blocks := alSet st.reg_blocks key ablock.scrub_alias }, none)
  | false =>
    match alLookup abi.device_hier_paths key with
    | none => (st, some "KeyError: device_hier_paths")
    | some hp =>
      let st' := { st with bus_interfaces :=
        { st.bus_interfaces with
            device_hier_paths := alSet st.bus_interfaces.device_hier_paths key hp } }
      match alLookup st'.reg_blocks key with
      | none => (st', some "KeyError: reg_blocks")
      | some rb =>
        match rb.apply_alias ablock with
        | .error e => (st', some e)
        | .ok rb' => ({ st' with reg_blocks := alSet st'.reg_blocks key rb' }, none)

/-- One iteration of the alias merge loop (ip_block.py lines 302-324):
asynchronous-classification consistency checks, then the merge body. -/
def mergeStep (scrub : Bool) (abi : BusInterfaces) (st : IpBlock)
    (kv : Option String × RegBlock) : IpBlock × Option String :=
  if st.bus_interfaces.device_async.isEmpty then
    mergeApply scrub abi st kv.1 kv.2
  else if abi.device_async.isEmpty then
    (st, some "Missing device_async key in alias interface")
  else
    match alLookup abi.device_async kv.1,
          alLookup st.bus_interfaces.device_async kv.1 with
    | some a, some s =>
      if a ≠ s then (st, some "Inconsistent configuration of interface")
      else mergeApply scrub abi st kv.1 kv.2
    | _, _ => (st, some "KeyError: device_async")

/-- The alias merge loop over all aliased interfaces; a failure aborts the
loop but keeps the mutations already applied, as Python's in-place loop
does. -/
def mergeLoop (scrub : Bool) (abi : BusInterfaces) :
    IpBlock → List (Option String × RegBlock) → IpBlock × Option String
  | st, [] => (st, none)
  | st, kv :: rest =>
    match mergeStep scrub abi st kv with
    | (st', none) => mergeLoop scrub abi st' rest
    | (st', some e) => (st', some e)

/-- IpBlock.alias_from_raw (ip_block.py lines 216-324): validates the alias
structure and merges it into the block.  The result is the post-call state
paired with an optional error, so that the partial mutation Python leaves
behind on failure (notably `self.alias_impl`, set at line 268 before the
alias-target check) is captured faithfully. -/
def IpBlock.alias_from_raw (b : IpBlock) (scrub : Bool) (raw : AliasRaw) :
    IpBlock × Option String :=
  let abi := raw.bus_interfaces
  if abi.has_unnamed_host || !abi.named_hosts.isEmpty then
    (b, some "Alias registers cannot be defined for host interfaces")
  else if abi.has_unnamed_device || b.bus_interfaces.has_unnamed_device then
    (b, some "Alias registers must use named devices")
  else if !(decide (∀ n ∈ abi.named_devices, n ∈ b.bus_interfaces.named_devices)) then
    (b, some "Alias file refers to device names that do not map to device names")
  else
    match checkName raw.alias_impl with
    | .error e => (b, some e)
    | .ok impl =>
      let b₁ := { b with alias_impl := some impl }
      match checkName raw.alias_target with
      | .error e => (b₁, some e)
      | .ok tgt =>
        if tgt ≠ b₁.name then
          (b₁, some "Alias target block name does not match block name")
        else
          let ablocks := buildBlocks raw.registers
          let akeys := ablocks.map Prod.fst
          if !(decide (∀ k ∈ akeys, k ∈ b₁.reg_blocks.map Prod.fst)) then
            (b₁, some "Alias file refers to register blocks that do not map to register blocks")
          else if !(eqAsSet akeys (abi.named_devices.map some)) then
            (b₁, some "Interface and register block names do not match")
          else
            mergeLoop scrub abi b₁ ablocks

/-- IpBlock._asdict (ip_block.py lines 336-354): serializes the block to an
ordered Python dict; the register content is a flat list when the mapping
is the single unnamed block, a dict keyed by interface otherwise. -/
def IpBlock._asdict (b : IpBlock) : List (String × PyVal) :=
  let regs :=
    if b.reg_blocks.length == 1 && decide ((none : Option String) ∈ b.reg_blocks.map Prod.fst) then
      match alLookup b.reg_blocks none with
      | some rb => rb.as_dicts
      | none => PyVal.list []
    else
      PyVal.dict (b.reg_blocks.map (fun kv => (kv.1, kv.2.as_dicts)))
  [("name", .str b.name),
   ("regwidth", .int b.regwidth),
   ("registers", regs),
   ("param_list", paramsAsDicts b.params),
   ("version", .str b.version.toStr),
   ("bus_interfaces", busAsDicts b.bus_interfaces),
   ("clocking", clockingVal b.clocking),
   ("scan", .bool b.scan),
   ("scan_reset", .bool b.scan_reset),
   ("scan_en", .bool b.scan_en)]

/-- The registers of a block that reference `g` as their gating register,
counting plain registers and the registers of multi-register instances
(ip_block.py lines 393-400). -/
def regwenUsers (rb : RegBlock) (g : String) : List Register :=
  rb.registers.filter (fun r => r.regwen == some g) ++
    (rb.multiregs.map (fun mr => mr.pregs.filter (fun r => r.regwen == some g))).flatten

/-- IpBlock.check_regwens (ip_block.py lines 377-413): a pure audit — for
every register whose name contains the REGWEN marker, collect the registers
gated by it; blocks with an unused gate flip the collected status to false.
The Python logging calls are output-only and are not modelled. -/
def IpBlock.check_regwens (b : IpBlock) : Bool :=
  b.reg_blocks.foldl
    (fun status kv =>
      let rb := kv.2
      let regwen_names :=
        (rb.registers.filter (fun r => hasRegwenToken r.name)).map Register.name
      let unused_regwens := regwen_names.filter (fun g => (regwenUsers rb g).isEmpty)
      if unused_regwens.isEmpty then status else false)
    true

/-- IpBlock.get_rnames (ip_block.py lines 356-360). -/
def IpBlock.get_rnames (b : IpBlock) : List String :=
  (b.reg_blocks.map (fun kv => kv.2.registers.map Register.name)).flatten

theorem alLookup_alSet_self {α β : Type} [DecidableEq α] (l : List (α × β)) (k : α) (v : β) :
    alLookup (alSet l k v) k = some v := by
  induction l with
  | nil => simp [alSet, alLookup]
  | cons kv rest ih =>
    obtain ⟨k', v'⟩ := kv
    by_cases h : k' = k
    · simp [alSet, alLookup, h]
    · simp [alSet, alLookup, h, ih]

theorem alLookup_alSet_ne {α β : Type} [DecidableEq α] (l : List (α × β)) (k k' : α) (v : β)
    (h : k' ≠ k) : alLookup (alSet l k v) k' = alLookup l k' := by
  have h' : ¬(k = k') := fun hh => h hh.symm
  induction l with
  | nil => simp [alSet, alLookup, h']
  | cons kv rest ih =>
    obtain ⟨k'', v''⟩ := kv
    by_cases hk : k'' = k
    · subst hk
      simp [alSet, alLookup, h']
    · simp only [alSet, if_neg hk, alLookup]
      by_cases hq : k'' = k'
      · simp [hq]
      · simp [hq, ih]

theorem mem_map_fst_of_alLookup {α β : Type} [DecidableEq α] {l : List (α × β)} {k : α}
    {v : β} (h : alLookup l k = some v) : k ∈ l.map Prod.fst := by
  induction l with
  | nil => simp [alLookup] at h
  | cons kv rest ih =>
    obtain ⟨k', v'⟩ := kv
    by_cases hk : k' = k
    · simp [hk]
    · simp only [alLookup, if_neg hk] at h
      simp [ih h]

theorem map_fst_alSet {α β : Type} [DecidableEq α] {l : List (α × β)} {k : α} (v : β)
    (h : k ∈ l.map Prod.fst) : (alSet l k v).map Prod.fst = l.map Prod.fst := by
  induction l with
  | nil => simp at h
  | cons kv rest ih =>
    obtain ⟨k', v'⟩ := kv
    by_cases hk : k' = k
    · simp [alSet, hk]
    · simp only [List.map_cons, List.mem_cons] at h
      rcases h with h | h
      · exact absurd h.symm hk
      · simp [alSet, if_neg hk, ih h]

theorem eqAsSet_iff {α : Type} [DecidableEq α] {l₁ l₂ : List α} :
    eqAsSet l₁ l₂ = true ↔ (∀ x, x ∈ l₁ ↔ x ∈ l₂) := by
  simp only [eqAsSet, Bool.and_eq_true, decide_eq_true_eq]
  constructor
  · rintro ⟨h₁, h₂⟩ x
    exact ⟨fun hx => h₁ x hx, fun hx => h₂ x hx⟩
  · intro h
    exact ⟨fun x hx => (h x).1 hx, fun x hx => (h x).2 hx⟩

theorem checkName_ok {s t : String} (h : checkName s = .ok t) : t = s := by
  unfold checkName at h
  split at h
  · cases h; rfl
  · cases h

theorem zipWith_mergeField_struct (gf : List RField) :
    ∀ af : List RField, gf.map RField.struct = af.map RField.struct →
      (List.zipWith mergeField gf af).map RField.struct = gf.map RField.struct := by
  induction gf with
  | nil => intro af _; simp
  | cons g gs ih =>
    intro af h
    cases af with
    | nil => simp at h
    | cons a as' =>
      simp only [List.map_cons, List.cons.injEq] at h
      simp only [List.zipWith_cons_cons, List.map_cons, List.cons.injEq]
      exact ⟨rfl, ih as' h.2⟩

theorem applyAliasReg_struct {g a r : Register} (h : applyAliasReg g a = .ok r) :
    regStruct r = regStruct g := by
  unfold applyAliasReg at h
  split at h
  · rename_i heq
    cases h
    have hf : g.fields.map RField.struct = a.fields.map RField.struct := by
      have := congrArg (fun p => p.2.2) heq
      simpa [regStruct] using this
    simp [regStruct, zipWith_mergeField_struct g.fields a.fields hf]
  · cases h

theorem applyAliasRegs_struct :
    ∀ (gs as' rs : List Register), applyAliasRegs gs as' = .ok rs →
      rs.map regStruct = gs.map regStruct := by
  intro gs
  induction gs with
  | nil =>
    intro as' rs h
    cases as' with
    | nil => simp [applyAliasRegs] at h; simp [← h]
    | cons a t => simp [applyAliasRegs] at h
  | cons g gs ih =>
    intro as' rs h
    cases as' with
    | nil => simp [applyAliasRegs] at h
    | cons a t =>
      simp only [applyAliasRegs] at h
      cases hr : applyAliasReg g a with
      | error e => rw [hr] at h; cases h
      | ok r =>
        rw [hr] at h
        cases hrs : applyAliasRegs gs t with
        | error e => rw [hrs] at h; cases h
        | ok rs' =>
          rw [hrs] at h
          cases h
          simp [applyAliasReg_struct hr, ih t rs' hrs]

theorem applyAliasMrs_struct :
    ∀ (gs as' rs : List MultiRegister), applyAliasMrs gs as' = .ok rs →
      rs.map (fun mr => mr.pregs.map regStruct) = gs.map (fun mr => mr.pregs.map regStruct) := by
  intro gs
  induction gs with
  | nil =>
    intro as' rs h
    cases as' with
    | nil => simp [applyAliasMrs] at h; simp [← h]
    | cons a t => simp [applyAliasMrs] at h
  | cons g gs ih =>
    intro as' rs h
    cases as' with
    | nil => simp [applyAliasMrs] at h
    | cons a t =>
      simp only [applyAliasMrs] at h
      cases hr : applyAliasRegs g.pregs a.pregs with
      | error e => rw [hr] at h; cases h
      | ok r =>
        rw [hr] at h
        cases hrs : applyAliasMrs gs t with
        | error e => rw [hrs] at h; cases h
        | ok rs' =>
          rw [hrs] at h
          cases h
          simp [applyAliasRegs_struct g.pregs a.pregs r hr, ih t rs' hrs]

theorem apply_alias_struct {g a r : RegBlock} (h : g.apply_alias a = .ok r) :
    blockStruct r = blockStruct g := by
  unfold RegBlock.apply_alias at h
  cases hr : applyAliasRegs g.registers a.registers with
  | error e => rw [hr] at h; cases h
  | ok rs =>
    rw [hr] at h
    cases hm : applyAliasMrs g.multiregs a.multiregs with
    | error e => rw [hm] at h; cases h
    | ok mrs =>
      rw [hm] at h
      cases h
      simp [blockStruct, applyAliasRegs_struct _ _ _ hr, applyAliasMrs_struct _ _ _ hm]

theorem mergeApply_alias_impl (scrub : Bool) (abi : BusInterfaces) (st : IpBlock)
    (k : Option String) (ab : RegBlock) :
    (mergeApply scrub abi st k ab).1.alias_impl = st.alias_impl := by
  unfold mergeApply
  dsimp only
  repeat' split
  all_goals rfl

theorem mergeStep_alias_impl (scrub : Bool) (abi : BusInterfaces) (st : IpBlock)
    (kv : Option String × RegBlock) :
    (mergeStep scrub abi st kv).1.alias_impl = st.alias_impl := by
  unfold mergeStep
  repeat' split
  all_goals first
    | rfl
    | exact mergeApply_alias_impl scrub abi st kv.1 kv.2

theorem mergeLoop_alias_impl (scrub : Bool) (abi : BusInterfaces) :
    ∀ (l : List (Option String × RegBlock)) (st : IpBlock),
      (mergeLoop scrub abi st l).1.alias_impl = st.alias_impl := by
  intro l
  induction l with
  | nil => intro st; rfl
  | cons kv rest ih =>
    intro st
    have hstep := mergeStep_alias_impl scrub abi st kv
    simp only [mergeLoop]
    cases hs : mergeStep scrub abi st kv with
    | mk st' err =>
      rw [hs] at hstep
      cases err with
      | none => rw [ih st']; exact hstep
      | some e => exact hstep

theorem mergeStep_success {scrub : Bool} {abi : BusInterfaces} {st st' : IpBlock}
    {kv : Option String × RegBlock}
    (h : mergeStep scrub abi st kv = (st', none)) :
    mergeApply scrub abi st kv.1 kv.2 = (st', none) := by
  unfold mergeStep at h
  repeat' split at h
  all_goals first
    | exact h
    | simp at h

theorem mergeApply_false_spec {abi : BusInterfaces} {st st' : IpBlock} {k : Option String}
    {ab : RegBlock} (h : mergeApply false abi st k ab = (st', none)) :
    st'.reg_blocks.map Prod.fst = st.reg_blocks.map Prod.fst ∧
    (∀ k', k' ≠ k → alLookup st'.reg_blocks k' = alLookup st.reg_blocks k') ∧
    (∀ rb, alLookup st.reg_blocks k = some rb →
        ∃ rb', alLookup st'.reg_blocks k = some rb' ∧ blockStruct rb' = blockStruct rb) ∧
    st'.bus_interfaces =
      { st.bus_interfaces with device_hier_paths := st'.bus_interfaces.device_hier_paths } := by
  unfold mergeApply at h
  dsimp only at h
  split at h
  · simp at h
  · rename_i hp hh
    split at h
    · simp at h
    · rename_i rb0 hr
      split at h
      · simp at h
      · rename_i rb1 ha
        injection h with h1 h2
        subst h1
        refine ⟨?_, ?_, ?_, ?_⟩
        · exact map_fst_alSet rb1 (mem_map_fst_of_alLookup hr)
        · intro k' hk'
          exact alLookup_alSet_ne st.reg_blocks k k' rb1 hk'
        · intro rb hrb
          rw [hr] at hrb
          injection hrb with hrb
          subst hrb
          exact ⟨rb1, alLookup_alSet_self st.reg_blocks k rb1, apply_alias_struct ha⟩
        · rfl

theorem mergeLoop_false_spec (abi : BusInterfaces) :
    ∀ (l : List (Option String × RegBlock)) (st st' : IpBlock),
      mergeLoop false abi st l = (st', none) →
      st'.reg_blocks.map Prod.fst = st.reg_blocks.map Prod.fst ∧
      (∀ k, k ∉ l.map Prod.fst → alLookup st'.reg_blocks k = alLookup st.reg_blocks k) ∧
      (∀ k rb, alLookup st.reg_blocks k = some rb →
          ∃ rb', alLookup st'.reg_blocks k = some rb' ∧ blockStruct rb' = blockStruct rb) ∧
      st'.bus_interfaces =
        { st.bus_interfaces with device_hier_paths := st'.bus_interfaces.device_hier_paths } := by
  intro l
  induction l with
  | nil =>
    intro st st' h
    simp only [mergeLoop] at h
    injection h with h1 _
    subst h1
    exact ⟨rfl, fun k _ => rfl, fun k rb hrb => ⟨rb, hrb, rfl⟩, rfl⟩
  | cons kv rest ih =>
    intro st st' h
    simp only [mergeLoop] at h
    cases hs : mergeStep false abi st kv with
    | mk st₁ err =>
      rw [hs] at h
      cases err with
      | some e => simp at h
      | none =>
        have hstep := mergeApply_false_spec (mergeStep_success hs)
        obtain ⟨hk₁, hu₁, hs₁, hb₁⟩ := hstep
        obtain ⟨hk₂, hu₂, hs₂, hb₂⟩ := ih st₁ st' h
        refine ⟨hk₂.trans hk₁, ?_, ?_, ?_⟩
        · intro k hk
          simp only [List.map_cons, List.mem_cons] at hk
          push_neg at hk
          exact (hu₂ k hk.2).trans (hu₁ k hk.1)
        · intro k rb hrb
          by_cases hkk : k = kv.1
          · subst hkk
            obtain ⟨rb₁, hrb₁, hst₁⟩ := hs₁ rb hrb
            obtain ⟨rb₂, hrb₂, hst₂⟩ := hs₂ kv.1 rb₁ hrb₁
            exact ⟨rb₂, hrb₂, hst₂.trans hst₁⟩
          · have : alLookup st₁.reg_blocks k = some rb := (hu₁ k hkk).trans hrb
            exact hs₂ k rb this
        · rw [hb₂, hb₁]

theorem mergeApply_true_eq (abi : BusInterfaces) (st : IpBlock) (k : Option String)
    (ab : RegBlock) :
    mergeApply true abi st k ab =
      ({ st with reg_blocks := alSet st.reg_blocks k ab.scrub_alias }, none) := by
  rfl

theorem mergeLoop_true_spec (abi : BusInterfaces) :
    ∀ (l : List (Option String × RegBlock)) (st st' : IpBlock),
      mergeLoop true abi st l = (st', none) →
      (l.map Prod.fst).Nodup →
      (∀ k, k ∉ l.map Prod.fst → alLookup st'.reg_blocks k = alLookup st.reg_blocks k) ∧
      (∀ kv ∈ l, alLookup st'.reg_blocks kv.1 = some kv.2.scrub_alias) := by
  intro l
  induction l with
  | nil =>
    intro st st' h _
    simp only [mergeLoop] at h
    injection h with h1 _
    subst h1
    exact ⟨fun k _ => rfl, fun kv hkv => absurd hkv (List.not_mem_nil kv)⟩
  | cons kv rest ih =>
    intro st st' h hnd
    simp only [mergeLoop] at h
    cases hs : mergeStep true abi st kv with
    | mk st₁ err =>
      rw [hs] at h
      cases err with
      | some e => simp at h
      | none =>
        have happ := mergeStep_success hs
        rw [mergeApply_true_eq] at happ
        injection happ with h1 _
        have hst₁ : st₁.reg_blocks = alSet st.reg_blocks kv.1 kv.2.scrub_alias := by
          rw [← h1]
        simp only [List.map_cons, List.nodup_cons] at hnd
        obtain ⟨hk1, hnd'⟩ := hnd
        obtain ⟨hu, hv⟩ := ih st₁ st' h hnd'
        constructor
        · intro k hk
          simp only [List.map_cons, List.mem_cons] at hk
          push_neg at hk
          rw [hu k hk.2, hst₁, alLookup_alSet_ne st.reg_blocks kv.1 k kv.2.scrub_alias hk.1]
        · intro kv' hkv'
          rcases List.mem_cons.mp hkv' with heq | hmem
          · subst heq
            rw [hu kv'.1 hk1, hst₁]
            exact alLookup_alSet_self st.reg_blocks kv'.1 kv'.2.scrub_alias
          · exact hv kv' hmem


theorem map_some_filter (l : List String) (n : String) :
    (l.filter (fun i => i == n)).map some =
      (l.map some).filter (fun k => k == some n) := by
  induction l with
  | nil => rfl
  | cons a t ih =>
    by_cases h : a = n
    · simp [h, ih]
    · simp [List.filter_cons, h, ih]

theorem postInit_ok_base {b b' : IpBlock} (h : postInit b = .ok b') (hn : b.node = "") :
    b'.reg_blocks = b.reg_blocks ∧
    eqAsSet (b'.reg_blocks.map Prod.fst) (declaredIds b.bus_interfaces) = true ∧
    b'.bus_interfaces = b.bus_interfaces ∧ b'.version = b.version := by
  unfold postInit at h
  dsimp only at h
  rw [if_neg (not_not_intro hn), if_neg (not_not_intro hn)] at h
  repeat' split at h
  any_goals cases h
  all_goals rename_i hun hset
  all_goals exact ⟨rfl, by simpa [declaredIds, hun] using hset, rfl, rfl⟩

theorem postInit_ok_node {b b' : IpBlock} (h : postInit b = .ok b') (hn : b.node ≠ "") :
    b'.reg_blocks = b.reg_blocks.filter (fun kv => kv.1 == some b.node) ∧
    eqAsSet (b'.reg_blocks.map Prod.fst)
      ((b.bus_interfaces.named_devices.filter (fun i => i == b.node)).map some ++
       (if b.bus_interfaces.has_unnamed_device then [(none : Option String)] else [])) = true ∧
    b'.bus_interfaces = b.bus_interfaces ∧ b'.version = b.version ∧ b'.node = b.node := by
  unfold postInit at h
  dsimp only at h
  rw [if_pos hn, if_pos hn] at h
  repeat' split at h
  any_goals cases h
  all_goals rename_i hun hset
  all_goals exact ⟨rfl, by simpa [hun] using hset, rfl, rfl, rfl⟩

theorem mem_map_fst_filter_key (l : List (Option String × RegBlock)) (n : String)
    (x : Option String)
    (hx : x ∈ (l.filter (fun kv => kv.1 == some n)).map Prod.fst) : x = some n := by
  simp only [List.mem_map, List.mem_filter] at hx
  obtain ⟨kv, ⟨_, hp⟩, hfst⟩ := hx
  rw [← hfst]
  exact eq_of_beq hp

/-- C1 (amended): a successfully finalized IpBlock's register-block key set
equals the declared device-interface identities when no node selector is
set; with a node selector it equals the declared identities restricted to
that node (the code compares against the filtered identity list, not the
full declared set).  Any mismatch is a construction-time failure. -/
theorem C1_amended (b b' : IpBlock) (h : postInit b = .ok b') :
    eqAsSet (b'.reg_blocks.map Prod.fst)
      (if b.node = "" then declaredIds b.bus_interfaces
       else (declaredIds b.bus_interfaces).filter (fun k => k == some b.node)) = true := by
  by_cases hn : b.node = ""
  · obtain ⟨_, hset, _, _⟩ := postInit_ok_base h hn
    simpa [hn] using hset
  · obtain ⟨hrb, hset, _, _, _⟩ := postInit_ok_node h hn
    rw [if_neg hn]
    cases hb : b.bus_interfaces.has_unnamed_device with
    | true =>
      rw [hb, if_pos rfl] at hset
      have hnone : (none : Option String) ∈ b'.reg_blocks.map Prod.fst :=
        (eqAsSet_iff.mp hset none).mpr (by simp)
      rw [hrb] at hnone
      exact absurd (mem_map_fst_filter_key _ _ _ hnone) (by simp)
    | false =>
      rw [hb, if_neg Bool.false_ne_true, List.append_nil] at hset
      unfold declaredIds
      rw [hb, if_neg Bool.false_ne_true, List.append_nil, ← map_some_filter]
      exact hset

/-- C4 (amended): constructing with a node selector X that names one of the
declared named device interfaces yields, on success, a register-block
mapping whose key set is exactly the singleton X; an undeclared X can yield
an empty mapping instead (see the counterexample), and the unnamed
interface is not selectable through the node argument. -/
theorem C4_amended (b b' : IpBlock) (h1 : postInit b = .ok b') (h2 : b.node ≠ "")
    (h3 : b.node ∈ b.bus_interfaces.named_devices) :
    eqAsSet (b'.reg_blocks.map Prod.fst) [some b.node] = true := by
  obtain ⟨hrb, hset, _, _, _⟩ := postInit_ok_node h1 h2
  have hiff := eqAsSet_iff.mp hset
  rw [eqAsSet_iff]
  intro x
  constructor
  · intro hx
    rw [hrb] at hx
    have := mem_map_fst_filter_key _ _ _ hx
    simp [this]
  · intro hx
    simp only [List.mem_singleton] at hx
    subst hx
    apply (hiff (some b.node)).mpr
    apply List.mem_append_left
    simp only [List.mem_map, List.mem_filter]
    exact ⟨b.node, ⟨h3, by simp⟩, rfl⟩

/-- C5: alias_from_raw fails whenever the alias-target name differs from
the IpBlock's own name, regardless of the alias's register content: every
execution path with a mismatched target ends in an error. -/
theorem C5_thm (b : IpBlock) (scrub : Bool) (raw : AliasRaw)
    (h : raw.alias_target ≠ b.name) :
    ((b.alias_from_raw scrub raw).2).isSome = true := by
  unfold IpBlock.alias_from_raw
  dsimp only
  split
  · rfl
  · split
    · rfl
    · split
      · rfl
      · split
        · rfl
        · split
          · rfl
          · rename_i tgt htgt
            split
            · rfl
            · rename_i hne
              exact absurd ((checkName_ok htgt) ▸ (not_not.mp hne)) h

/-- C6: alias_from_raw fails, with no mutation at all, whenever the alias
declares a host interface (named or unnamed) or an unnamed device
interface, or the IpBlock itself has an unnamed device interface. -/
theorem C6_thm (b : IpBlock) (scrub : Bool) (raw : AliasRaw)
    (h : raw.bus_interfaces.has_unnamed_host = true ∨
         raw.bus_interfaces.named_hosts ≠ [] ∨
         raw.bus_interfaces.has_unnamed_device = true ∨
         b.bus_interfaces.has_unnamed_device = true) :
    ((b.alias_from_raw scrub raw).2).isSome = true ∧
    (b.alias_from_raw scrub raw).1 = b := by
  unfold IpBlock.alias_from_raw
  dsimp only
  split
  · exact ⟨rfl, rfl⟩
  · rename_i hc1
    split
    · exact ⟨rfl, rfl⟩
    · rename_i hc2
      exfalso
      rcases h with h | h | h | h
      · exact hc1 (by simp [h])
      · cases hl : raw.bus_interfaces.named_hosts with
        | nil => exact absurd hl h
        | cons a t => exact hc1 (by simp [hl])
      · exact hc2 (by simp [h])
      · exact hc2 (by simp [h])

/-- C10: once the checks preceding line 268 pass, alias_from_raw records
the alias implementation identifier on the block before checking the alias
target, so a failure at the target check or any later step leaves
alias_impl set to the alias file's identifier. -/
theorem C10_thm (b : IpBlock) (scrub : Bool) (raw : AliasRaw)
    (h1 : raw.bus_interfaces.has_unnamed_host = false)
    (h2 : raw.bus_interfaces.named_hosts = [])
    (h3 : raw.bus_interfaces.has_unnamed_device = false)
    (h4 : b.bus_interfaces.has_unnamed_device = false)
    (h5 : ∀ n ∈ raw.bus_interfaces.named_devices, n ∈ b.bus_interfaces.named_devices)
    (h6 : validName raw.alias_impl = true)
    (h7 : ((b.alias_from_raw scrub raw).2).isSome = true) :
    (b.alias_from_raw scrub raw).1.alias_impl = some raw.alias_impl := by
  have hck : checkName raw.alias_impl = .ok raw.alias_impl := by
    unfold checkName
    rw [if_pos h6]
  unfold IpBlock.alias_from_raw
  dsimp only
  rw [if_neg (by simp [h1, h2]), if_neg (by simp [h3, h4]),
      if_neg (by simpa using h5), hck]
  dsimp only
  split
  · rfl
  · split
    · rfl
    · split
      · rfl
      · split
        · rfl
        · rw [mergeLoop_alias_impl]

/-- C2: a successful non-scrub alias merge keeps the register-block key
list unchanged, leaves every block whose interface is not named in the
alias file untouched, preserves the structural content (register count,
offsets, regwen references, field layout and access) of every block, and
modifies the bus interfaces only in their hierarchy paths. -/
theorem C2_thm (b : IpBlock) (raw : AliasRaw) (b' : IpBlock)
    (h : b.alias_from_raw false raw = (b', none)) :
    b'.reg_blocks.map Prod.fst = b.reg_blocks.map Prod.fst ∧
    (∀ k, k ∉ (buildBlocks raw.registers).map Prod.fst →
        alLookup b'.reg_blocks k = alLookup b.reg_blocks k) ∧
    (∀ k rb rb', alLookup b.reg_blocks k = some rb →
        alLookup b'.reg_blocks k = some rb' → blockStruct rb' = blockStruct rb) ∧
    b'.bus_interfaces =
      { b.bus_interfaces with device_hier_paths := b'.bus_interfaces.device_hier_paths } := by
  unfold IpBlock.alias_from_raw at h
  dsimp only at h
  repeat' split at h
  any_goals simp at h
  obtain ⟨hk, hu, hs, hb⟩ := mergeLoop_false_spec raw.bus_interfaces _ _ _ h
  refine ⟨hk, hu, ?_, hb⟩
  intro k rb rb' hrb hrb'
  obtain ⟨rb₂, hrb₂, hstruct⟩ := hs k rb hrb
  rw [hrb'] at hrb₂
  injection hrb₂ with he
  rw [he]
  exact hstruct

/-- C3: a successful scrub-mode alias merge replaces the register block of
every aliased device interface with the scrubbed alias block, and leaves
blocks of interfaces not named in the alias file untouched. -/
theorem C3_thm (b : IpBlock) (raw : AliasRaw) (b' : IpBlock)
    (h : b.alias_from_raw true raw = (b', none))
    (hnd : ((buildBlocks raw.registers).map Prod.fst).Nodup) :
    (∀ k, k ∉ (buildBlocks raw.registers).map Prod.fst →
        alLookup b'.reg_blocks k = alLookup b.reg_blocks k) ∧
    (∀ kv ∈ buildBlocks raw.registers,
        alLookup b'.reg_blocks kv.1 = some kv.2.scrub_alias) := by
  unfold IpBlock.alias_from_raw at h
  dsimp only at h
  repeat' split at h
  any_goals simp at h
  obtain ⟨hu, hv⟩ := mergeLoop_true_spec raw.bus_interfaces (buildBlocks raw.registers) _ b' h hnd
  exact ⟨hu, hv⟩

/-- C7 (amended): the version defaults to "0.0.0" when absent; when the
semantic_version library is unavailable the in-repo fallback carries any
string (parsable or not) as a plain string, so construction is never
aborted by the version; with the library available an unparsable version
string aborts from_raw (see the counterexample). -/
theorem C7_amended (lib : Bool) (pd : List (String × String)) (raw : RawBlock)
    (node : String) (b : IpBlock) (s : String)
    (h1 : raw.version = none)
    (h2 : IpBlock.from_raw lib pd raw node = .ok b) :
    Version.toStr b.version = "0.0.0" ∧ mkVersion false s = .ok (Version.plain s) := by
  refine ⟨?_, rfl⟩
  unfold IpBlock.from_raw at h2
  rw [h1] at h2
  simp only [Option.getD_none] at h2
  repeat' split at h2
  any_goals cases h2
  all_goals rename_i ver hver hbij
  all_goals
    have hv : b.version = ver := by
      by_cases hn : node = ""
      · exact (postInit_ok_base h2 hn).2.2.2
      · exact (postInit_ok_node h2 hn).2.2.2.1
  all_goals cases lib
  all_goals rw [hv]
  · have h' : mkVersion false "0.0.0" = .ok (Version.plain "0.0.0") := rfl
    rw [h'] at hver
    injection hver with he
    rw [← he]
    rfl
  · have h' : mkVersion true "0.0.0" = .ok (Version.sem 0 0 0) := by decide
    rw [h'] at hver
    injection hver with he
    rw [← he]
    rfl

theorem foldl_and_all {α : Type} (p : α → Bool) :
    ∀ (l : List α) (s : Bool),
      l.foldl (fun status x => if p x then status else false) s = (s && l.all p) := by
  intro l
  induction l with
  | nil => intro s; simp
  | cons x t ih =>
    intro s
    simp only [List.foldl_cons, List.all_cons]
    rw [ih]
    by_cases h : p x
    · simp [h]
    · simp [h]

theorem check_regwens_eq_all (b : IpBlock) :
    b.check_regwens = b.reg_blocks.all (fun kv =>
      (((kv.2.registers.filter (fun r => hasRegwenToken r.name)).map Register.name).filter
        (fun g => (regwenUsers kv.2 g).isEmpty)).isEmpty) := by
  have h := foldl_and_all (fun kv : Option String × RegBlock =>
      (((kv.2.registers.filter (fun r => hasRegwenToken r.name)).map Register.name).filter
        (fun g => (regwenUsers kv.2 g).isEmpty)).isEmpty) b.reg_blocks true
  rw [Bool.true_and] at h
  exact h

theorem regwenUsers_isEmpty_iff (rb : RegBlock) (g : String) :
    (regwenUsers rb g).isEmpty = true ↔
      (∀ u ∈ rb.registers, u.regwen ≠ some g) ∧
      (∀ mr ∈ rb.multiregs, ∀ u ∈ mr.pregs, u.regwen ≠ some g) := by
  unfold regwenUsers
  simp only [List.isEmpty_iff, List.append_eq_nil, List.filter_eq_nil_iff,
    List.flatten_eq_nil_iff, List.mem_map, beq_iff_eq]
  constructor
  · rintro ⟨hA, hB⟩
    refine ⟨hA, ?_⟩
    intro mr hmr u hu
    have := hB (mr.pregs.filter (fun r => r.regwen == some g)) ⟨mr, hmr, rfl⟩
    rw [List.filter_eq_nil_iff] at this
    simpa using this u hu
  · rintro ⟨hA, hB⟩
    refine ⟨hA, ?_⟩
    rintro l ⟨mr, hmr, rfl⟩
    rw [List.filter_eq_nil_iff]
    intro u hu
    simpa using hB mr hmr u hu

/-- C9: check_regwens is a pure, total audit; it returns false exactly when
some register block contains a register whose name carries the REGWEN
marker that no register of that block (plain or inside a multi-register)
references through its regwen attribute. -/
theorem C9_thm (b : IpBlock) :
    b.check_regwens = false ↔
      ∃ kv ∈ b.reg_blocks, ∃ r ∈ kv.2.registers,
        hasRegwenToken r.name = true ∧
        (∀ u ∈ kv.2.registers, u.regwen ≠ some r.name) ∧
        (∀ mr ∈ kv.2.multiregs, ∀ u ∈ mr.pregs, u.regwen ≠ some r.name) := by
  rw [check_regwens_eq_all, List.all_eq_false]
  constructor
  · rintro ⟨kv, hkv, hp⟩
    rw [Bool.not_eq_true, List.isEmpty_eq_false_iff_exists_mem] at hp
    obtain ⟨g, hg⟩ := hp
    rw [List.mem_filter] at hg
    obtain ⟨hgnames, hgunused⟩ := hg
    rw [List.mem_map] at hgnames
    obtain ⟨r, hrmem, hrname⟩ := hgnames
    rw [List.mem_filter] at hrmem
    refine ⟨kv, hkv, r, hrmem.1, hrmem.2, ?_⟩
    rw [hrname]
    exact (regwenUsers_isEmpty_iff kv.2 g).mp hgunused
  · rintro ⟨kv, hkv, r, hr, htok, hused₁, hused₂⟩
    refine ⟨kv, hkv, ?_⟩
    rw [Bool.not_eq_true, List.isEmpty_eq_false_iff_exists_mem]
    refine ⟨r.name, ?_⟩
    rw [List.mem_filter]
    constructor
    · rw [List.mem_map]
      exact ⟨r, List.mem_filter.mpr ⟨hr, htok⟩, rfl⟩
    · exact (regwenUsers_isEmpty_iff kv.2 r.name).mpr ⟨hused₁, hused₂⟩

theorem singleton_none_cond (l : List (Option String × RegBlock)) :
    (l.length == 1 && decide ((none : Option String) ∈ l.map Prod.fst)) =
      (l.map Prod.fst == [none]) := by
  cases l with
  | nil => rfl
  | cons kv t =>
    cases t with
    | nil =>
      obtain ⟨k, v⟩ := kv
      cases k with
      | none => simp
      | some s => simp
    | cons kv2 t2 => simp [List.length_cons]

/-- C8: _asdict emits the register content as a flat list exactly when the
register-block mapping consists of the single unnamed block (key list
equal to [none]) and as a mapping keyed by interface in every other case;
the version is emitted as a plain string, and name, regwidth, parameter
list, bus-interface list, clock list and the three scan flags are all
present. -/
theorem C8_thm (b : IpBlock) :
    ((alLookup b._asdict "registers").map PyVal.isList =
        some (b.reg_blocks.map Prod.fst == [none])) ∧
    ((alLookup b._asdict "registers").map PyVal.isDict =
        some (!(b.reg_blocks.map Prod.fst == [none]))) ∧
    alLookup b._asdict "version" = some (.str b.version.toStr) ∧
    (alLookup b._asdict "name").isSome = true ∧
    (alLookup b._asdict "regwidth").isSome = true ∧
    (alLookup b._asdict "param_list").isSome = true ∧
    (alLookup b._asdict "bus_interfaces").isSome = true ∧
    (alLookup b._asdict "clocking").isSome = true ∧
    (alLookup b._asdict "scan").isSome = true ∧
    (alLookup b._asdict "scan_reset").isSome = true ∧
    (alLookup b._asdict "scan_en").isSome = true := by
  unfold IpBlock._asdict
  dsimp only
  rw [← singleton_none_cond b.reg_blocks]
  refine ⟨?_, ?_, by simp [alLookup], by simp [alLookup], by simp [alLookup],
    by simp [alLookup], by simp [alLookup], by simp [alLookup], by simp [alLookup],
    by simp [alLookup], by simp [alLookup]⟩
  · by_cases hc : (b.reg_blocks.length == 1 &&
        decide ((none : Option String) ∈ b.reg_blocks.map Prod.fst)) = true
    · simp [alLookup, hc]
      split <;> simp [RegBlock.as_dicts, PyVal.isList]
    · rw [Bool.not_eq_true] at hc
      simp only [alLookup, hc]
      simp [PyVal.isList]
  · by_cases hc : (b.reg_blocks.length == 1 &&
        decide ((none : Option String) ∈ b.reg_blocks.map Prod.fst)) = true
    · simp [alLookup, hc]
      split <;> simp [RegBlock.as_dicts, PyVal.isDict]
    · rw [Bool.not_eq_true] at hc
      simp only [alLookup, hc]
      simp [PyVal.isDict]

/-- Sample register field used by the concrete instances below. -/
def fldEn : RField :=
  { name := "en", desc := "enable", resval := 0, tags := [],
    lsb := 0, width := 1, swaccess := "rw" }

/-- Sample control register. -/
def regCtrl : Register :=
  { name := "ctrl", desc := "control register", resval := 0, tags := [],
    offset := 0, regwen := none, fields := [fldEn] }

/-- Sample register block for a `core` device interface. -/
def rbCore : RegBlock := { name := "core", registers := [regCtrl], multiregs := [] }

/-- Sample register block for a `dma` device interface. -/
def rbDma : RegBlock := { name := "dma", registers := [regCtrl], multiregs := [] }

/-- Sample clock set. -/
def clkMain : Clocking := { items := [{ clock := "clk_i", reset := "rst_ni" }] }

/-- Bus interfaces declaring the single named device `core`. -/
def biCore : BusInterfaces :=
  { named_hosts := [], has_unnamed_host := false, named_devices := ["core"],
    has_unnamed_device := false, device_async := [],
    device_hier_paths := [(some "core", "u_reg")] }

/-- Bus interfaces declaring the named devices `core` and `dma`. -/
def biCoreDma : BusInterfaces :=
  { named_hosts := [], has_unnamed_host := false, named_devices := ["core", "dma"],
    has_unnamed_device := false, device_async := [],
    device_hier_paths := [(some "core", "u_reg"), (some "dma", "u_dma")] }

/-- A concrete validated IpBlock with one named device interface. -/
def ipbUart : IpBlock :=
  { name := "uart", regwidth := 32, params := [], reg_blocks := [(some "core", rbCore)],
    bus_interfaces := biCore, clocking := clkMain, version := Version.sem 1 0 0,
    scan := false, scan_reset := false, scan_en := false, node := "", alias_impl := none }

/-- A two-interface IpBlock carrying a node selector for `core`. -/
def ipbUartNode : IpBlock :=
  { ipbUart with
    reg_blocks := [(some "core", rbCore), (some "dma", rbDma)],
    bus_interfaces := biCoreDma, node := "core" }

/-- The finalized form of `ipbUartNode`: only the selected block remains. -/
def ipbUartNodeOut : IpBlock := { ipbUartNode with reg_blocks := [(some "core", rbCore)] }

/-- Raw description of a two-interface block. -/
def rawUartTwo : RawBlock :=
  { name := "uart", regwidth := none, param_list := [],
    registers := [(some "core", rbCore), (some "dma", rbDma)],
    bus_interfaces := biCoreDma, clocking := clkMain, version := none,
    scan := none, scan_reset := none, scan_en := none }

/-- Raw description of a single-interface block. -/
def rawUartOne : RawBlock :=
  { name := "uart", regwidth := none, param_list := [],
    registers := [(some "core", rbCore)], bus_interfaces := biCore,
    clocking := clkMain, version := none,
    scan := none, scan_reset := none, scan_en := none }

/-- Raw description with an unparsable version string. -/
def rawUartBadVer : RawBlock := { rawUartOne with version := some "garbage" }

/-- The block produced by from_raw on `rawUartOne` with the semver library
available: the default version string parses to the structured 0.0.0. -/
def ipbUartParsed : IpBlock :=
  { ipbUart with version := Version.sem 0 0 0 }

/-- Alias register differing from `regCtrl` only in cosmetic attributes. -/
def regCtrlAlias : Register :=
  { regCtrl with name := "ctrl_alias", desc := "aliased control" }

/-- Alias register block for the `core` interface. -/
def rbCoreAlias : RegBlock :=
  { name := "core", registers := [regCtrlAlias], multiregs := [] }

/-- Bus interfaces declared by the alias file. -/
def abiCore : BusInterfaces :=
  { named_hosts := [], has_unnamed_host := false, named_devices := ["core"],
    has_unnamed_device := false, device_async := [],
    device_hier_paths := [(some "core", "u_alias_reg")] }

/-- A well-formed alias description targeting `uart`. -/
def rawAliasCore : AliasRaw :=
  { alias_impl := "impl_a", alias_target := "uart",
    registers := [(some "core", rbCoreAlias)], bus_interfaces := abiCore }

/-- The expected state after a successful non-scrub merge of
`rawAliasCore` into `ipbUart`. -/
def ipbUartAliased : IpBlock :=
  { ipbUart with
    alias_impl := some "impl_a",
    bus_interfaces := { biCore with device_hier_paths := [(some "core", "u_alias_reg")] },
    reg_blocks := [(some "core", rbCoreAlias)] }

/-- The expected state after a successful scrub-mode merge. -/
def ipbUartScrubbed : IpBlock :=
  { ipbUart with
    alias_impl := some "impl_a",
    reg_blocks := [(some "core", rbCoreAlias.scrub_alias)] }

/-- The alias description with a mismatched target name. -/
def rawAliasWrongTarget : AliasRaw := { rawAliasCore with alias_target := "spi" }

/-- The alias description declaring an unnamed host interface. -/
def rawAliasHosty : AliasRaw :=
  { rawAliasCore with bus_interfaces := { abiCore with has_unnamed_host := true } }

/-- C1 counterexample: constructing the two-interface block with node
selector `core` succeeds, yet the resulting key set is a strict subset of
the declared device-interface identities — the claim's equality with the
full declared set fails under a node selector. -/
theorem C1_counterexample :
    Except.map keysOf (IpBlock.from_raw false [] rawUartTwo "core") = .ok [some "core"] ∧
    eqAsSet [some "core"] (declaredIds rawUartTwo.bus_interfaces) = false := by
  decide

/-- C1 witness at a concrete block without a node selector. -/
theorem C1_witness :
    postInit ipbUart = .ok ipbUart ∧
    eqAsSet (ipbUart.reg_blocks.map Prod.fst)
      (if ipbUart.node = "" then declaredIds ipbUart.bus_interfaces
       else (declaredIds ipbUart.bus_interfaces).filter
         (fun k => k == some ipbUart.node)) = true :=
  ⟨by decide, C1_amended ipbUart ipbUart (by decide)⟩

/-- C4 counterexample: constructing with a node selector naming an
undeclared interface `dma` succeeds with an empty register-block mapping,
not the claimed singleton mapping for the selector. -/
theorem C4_counterexample :
    Except.map keysOf (IpBlock.from_raw false [] rawUartOne "dma") = .ok [] ∧
    ([] : List (Option String)) ≠ [some "dma"] := by
  decide

/-- C4 witness at a concrete block whose node selector names a declared
interface. -/
theorem C4_witness :
    eqAsSet (ipbUartNodeOut.reg_blocks.map Prod.fst) [some ipbUartNode.node] = true :=
  C4_amended ipbUartNode ipbUartNodeOut (by decide) (by decide) (by decide)

/-- C2 witness: a concrete successful non-scrub merge keeps the key list. -/
theorem C2_witness :
    ipbUart.alias_from_raw false rawAliasCore = (ipbUartAliased, none) ∧
    ipbUartAliased.reg_blocks.map Prod.fst = ipbUart.reg_blocks.map Prod.fst :=
  ⟨by decide, (C2_thm ipbUart rawAliasCore ipbUartAliased (by decide)).1⟩

/-- C3 witness: a concrete scrub merge replaces the core block with the
scrubbed alias block. -/
theorem C3_witness :
    ipbUart.alias_from_raw true rawAliasCore = (ipbUartScrubbed, none) ∧
    alLookup ipbUartScrubbed.reg_blocks (some "core") = some rbCoreAlias.scrub_alias :=
  ⟨by decide,
    (C3_thm ipbUart rawAliasCore ipbUartScrubbed (by decide) (by decide)).2
      (some "core", rbCoreAlias) (by decide)⟩

/-- C5 witness: a concrete alias call with a mismatched target fails. -/
theorem C5_witness :
    ((ipbUart.alias_from_raw false rawAliasWrongTarget).2).isSome = true :=
  C5_thm ipbUart false rawAliasWrongTarget (by decide)

/-- C6 witness: a concrete alias call declaring a host interface fails
without mutating the block. -/
theorem C6_witness :
    ((ipbUart.alias_from_raw false rawAliasHosty).2).isSome = true ∧
    (ipbUart.alias_from_raw false rawAliasHosty).1 = ipbUart :=
  C6_thm ipbUart false rawAliasHosty (Or.inl rfl)

/-- C7 counterexample: with the semantic_version library available, an
unparsable version string aborts from_raw, contradicting the claim that
construction never aborts on unparsable versions. -/
theorem C7_counterexample :
    rawUartBadVer.version = some "garbage" ∧
    IpBlock.from_raw true [] rawUartBadVer "" =
      .error "Invalid version string: garbage" := by
  decide

/-- C7 witness: an absent version defaults to 0.0.0, and the fallback
carries an arbitrary unparsable string. -/
theorem C7_witness :
    Version.toStr ipbUartParsed.version = "0.0.0" ∧
    mkVersion false "x.y" = .ok (Version.plain "x.y") :=
  C7_amended true [] rawUartOne "" ipbUartParsed "x.y" (by decide) (by decide)

/-- C10 witness: the concrete wrong-target alias call fails yet has set
alias_impl to the alias file's identifier. -/
theorem C10_witness :
    (ipbUart.alias_from_raw false rawAliasWrongTarget).1.alias_impl =
      some rawAliasWrongTarget.alias_impl :=
  C10_thm ipbUart false rawAliasWrongTarget (by decide) (by decide) (by decide)
    (by decide) (by decide) (by decide) (by decide)
